import Mathlib

/-!
Shallow embedding of `miner_exporter.py` (PaulVMo/miner_exporter).

The program runs an infinite polling loop.  Each cycle calls `stats(miner)`,
which performs a number of JSON-RPC fetches (each may fail) and publishes the
results into a process-global Prometheus metrics registry.

Modelling choices:
* Every RPC fetch outcome is passed to `stats` as an `Option` argument
  (`none` = the call raised, `some v` = it returned `v`).  The owner-balance
  fetch is a function `String → Option ℚ` because it is keyed by the owner
  address computed inside the cycle.
* The metrics registry is a `Metrics` record: one field per Prometheus
  metric declared in the source, each a function from its label tuple to
  `Option ℚ` (`none` = that labelled child has never been set / was cleared).
* `Gauge.labels(...).set(v)` is pointwise function update (`setK`);
  `Gauge.clear()` replaces the family with the constant-`none` function.
* Python numbers are modelled as `ℚ`; `1.0e8` is the exact rational `10^8`.
* The single uncaught exception reachable inside `stats` is the
  `peer_book_info[0]` indexing of an empty list (an `IndexError`); `stats`
  therefore returns the registry state paired with an optional escaping
  error.  The `__main__` loop body (`loopStep`) catches `ValueError` only.
-/

/-- One entry of the validator penalty ledger as returned by
`miner.ledger_validators` (fields read by the source). -/
structure LedgerEntry where
  address : String
  name : String
  owner_address : String
  tenure_penalty : ℚ
  dkg_penalty : ℚ
  performance_penalty : ℚ
  total_penalty : ℚ
  last_heartbeat : ℚ
  status : String
deriving DecidableEq

/-- One consensus-group member of the `hbbft_perf` response. -/
structure ConsensusMember where
  address : String
  name : String
  penalty : ℚ
  bba_completions : ℚ
  seen_votes : ℚ
  last_bba : ℚ
  last_seen : ℚ
  tenure : ℚ
deriving DecidableEq

/-- The `miner.hbbft_perf()` response. -/
structure HbbftPerf where
  blocks_since_epoch : ℚ
  max_seen : ℚ
  consensus_members : List ConsensusMember
deriving DecidableEq

/-- The `miner.info_height()` response: `height` is always present,
`sync_height` is present exactly when the node is syncing and behind. -/
structure HeightInfo where
  height : ℚ
  sync_height : Option ℚ
deriving DecidableEq

/-- One entry of the `miner.peer_book_self()` response sequence. -/
structure PeerBookEntry where
  connection_count : ℚ
  sessions : List String
deriving DecidableEq

/-- The three boolean environment flags read at startup. -/
structure Config where
  collect_system_usage : Bool
  all_hbbft : Bool
  all_penalties : Bool
deriving DecidableEq

/-- One sample of host state as read through `psutil` (the raw readings; the
source divides disk used/free by disk total itself). -/
structure HostUsage where
  cpu_percent : ℚ
  virtual_memory : ℚ
  cpu_steal : ℚ
  disk_used : ℚ
  disk_free : ℚ
  disk_total : ℚ
  process_count : ℚ
deriving DecidableEq

/-- The Python exception classes relevant to control flow here: the
`IndexError` raised by `peer_book_info[0]` on an empty response, the
`AttributeError` raised by `penalty_ledger.items()` when `penalty_ledger`
is a raw list (see `resolveLedger`), and the `ValueError` class named in
the driver loop handler. -/
inductive PyErr where
  | indexError
  | valueError
  | attributeError
deriving DecidableEq

/-- The Prometheus registry state: one field per metric family declared in
the source, as a map from its label tuple to an optionally-set sample value.
`validator_version` is an Info metric, holding a string. -/
structure Metrics where
  chain_stats : String → Option ℚ
  val : String × String → Option ℚ
  incon : String → Option ℚ
  blockage : String → Option ℚ
  heartbeat : String × String → Option ℚ
  hbbft_perf : String × String × String → Option ℚ
  connections : String × String → Option ℚ
  sessions : String × String → Option ℚ
  ledger_penalty : String × String × String × String → Option ℚ
  validator_version : String → Option String
  balance : String → Option ℚ
  system_usage : String × String → Option ℚ

/-- `Gauge.labels(k).set(v)`: pointwise update of a labelled family. -/
def setK {α β : Type} [DecidableEq α] (f : α → Option β) (k : α) (v : β) :
    α → Option β :=
  fun x => if x = k then some v else f x

/-- Prometheus stores a boolean sample as 1.0 / 0.0. -/
def boolToQ (b : Bool) : ℚ := if b then 1 else 0

/-- Python dict insertion: replacing an existing key keeps its position,
a fresh key is appended at the end. -/
def dictInsert (k : String) (v : LedgerEntry) :
    List (String × LedgerEntry) → List (String × LedgerEntry)
  | [] => [(k, v)]
  | p :: rest => if p.1 = k then (k, v) :: rest else p :: dictInsert k v rest

/-- Build the dict of the comprehension at line 124 of the source:
keys are the entries' addresses, later duplicates overwrite. -/
def dictOfLedgerAux (d : List (String × LedgerEntry)) :
    List LedgerEntry → List (String × LedgerEntry)
  | [] => d
  | v :: rest => dictOfLedgerAux (dictInsert v.address v d) rest

/-- `\x7bv['address']:v for v in entries\x7d` as a Python dict. -/
def dictOfLedger (l : List LedgerEntry) : List (String × LedgerEntry) :=
  dictOfLedgerAux [] l

/-- Python `d[k]` / `k in d` on the modelled dict. -/
def dictGet (d : List (String × LedgerEntry)) (k : String) :
    Option LedgerEntry :=
  (d.find? (fun p => p.1 == k)).map (fun p => p.2)

/-- The possible values of the Python variable `penalty_ledger` after its
`try` block (lines 118–129).  Python typing: `None` when no list was
obtained, a raw **list** on the divergent path of the `ALL_PENALTIES`
branch (the source calls `miner.ledger_validators()` twice: line 121
assigns the raw list, the dict comprehension at line 124 fetches again;
when only the second call raises, the `except` catches it after the
line-121 assignment already happened, leaving the list bound), and a dict
in the normal cases. -/
inductive PenaltyLedger where
  | pynone
  | pylist (l : List LedgerEntry)
  | pydict (d : List (String × LedgerEntry))
deriving DecidableEq

/-- Lines 118–129: the `penalty_ledger` value at the end of its `try`
block.  With `ALL_PENALTIES`, `lv1` and `lv2` are the outcomes of the two
`miner.ledger_validators()` calls (line 121 and line 124): if the first
raises, `penalty_ledger` stays `None`; if only the second raises, the raw
list of the first call is left bound; if both succeed, the second list is
filtered to `status == "staked"` and keyed by address.  Without
`ALL_PENALTIES` the single self entry is wrapped as a one-key dict keyed
by the fetched self address, or stays `None` when that fetch raised. -/
def resolveLedger (all_penalties : Bool) (lv1 lv2 : Option (List LedgerEntry))
    (ls : Option LedgerEntry) (addr : String) : PenaltyLedger :=
  if all_penalties then
    match lv1 with
    | none => PenaltyLedger.pynone
    | some l1 =>
      match lv2 with
      | none => PenaltyLedger.pylist l1
      | some l2 =>
          PenaltyLedger.pydict
            (dictOfLedger (l2.filter (fun v => v.status == "staked")))
  else
    match ls with
    | none => PenaltyLedger.pynone
    | some e => PenaltyLedger.pydict [(addr, e)]

/-- Lines 131–133: Python `penalty_ledger is not None and addr in
penalty_ledger`, then the owner lookup.  On a dict this is the key lookup;
on the raw list `addr in list` compares the string against the list's dict
elements and is always false, so the owner stays `None`; on `None` the
`is not None` guard fails. -/
def ledgerOwner (pl : PenaltyLedger) (addr : String) : Option String :=
  match pl with
  | PenaltyLedger.pydict d => (dictGet d addr).map (fun e => e.owner_address)
  | _ => none

/-- Whether the ledger value is the raw list of the divergent double-fetch
path; the publication loop then crashes at line 196. -/
def PenaltyLedger.isList : PenaltyLedger → Bool
  | PenaltyLedger.pylist _ => true
  | _ => false

/-- Lines 197–202: the writes of one ledger entry into the
`validator_ledger` gauge family (labels: resource_type, subtype, name,
address).  The ratio sample is written only under the `tenure_penalty > 0`
guard, so no division by zero is ever attempted. -/
def ledgerEntryGauge (g : String × String × String × String → Option ℚ)
    (e : LedgerEntry) : String × String × String × String → Option ℚ :=
  if e.tenure_penalty > 0 then
    setK (setK (setK (setK (setK g
      ("ledger_penalties", "tenure", e.name, e.address) e.tenure_penalty)
      ("ledger_penalties", "dkg", e.name, e.address) e.dkg_penalty)
      ("ledger_penalties", "performance", e.name, e.address) e.performance_penalty)
      ("ledger_penalties", "total", e.name, e.address) e.total_penalty)
      ("ledger_penalties", "perf_tenure_ratio", e.name, e.address)
      ((e.performance_penalty + e.dkg_penalty) / e.tenure_penalty)
  else
    setK (setK (setK (setK g
      ("ledger_penalties", "tenure", e.name, e.address) e.tenure_penalty)
      ("ledger_penalties", "dkg", e.name, e.address) e.dkg_penalty)
      ("ledger_penalties", "performance", e.name, e.address) e.performance_penalty)
      ("ledger_penalties", "total", e.name, e.address) e.total_penalty

/-- The `for address, ledger_entry in penalty_ledger.items()` loop's effect
on the `validator_ledger` gauge family. -/
def ledgerGaugeOf (g : String × String × String × String → Option ℚ) :
    List (String × LedgerEntry) → String × String × String × String → Option ℚ
  | [] => g
  | p :: rest => ledgerGaugeOf (ledgerEntryGauge g p.2) rest

/-- The same loop's effect on the `validator_last_heartbeat` gauge family
(line 203); this family is never cleared. -/
def heartbeatGaugeOf (g : String × String → Option ℚ) :
    List (String × LedgerEntry) → String × String → Option ℚ
  | [] => g
  | p :: rest =>
      heartbeatGaugeOf (setK g (p.2.name, p.2.address) p.2.last_heartbeat) rest

/-- Lines 215–222: the eight writes of one consensus member into the
`validator_hbbft_perf` gauge family (labels: resource_type, subtype, name). -/
def memberGauge (bba_tot seen_tot : ℚ)
    (g : String × String × String → Option ℚ) (c : ConsensusMember) :
    String × String × String → Option ℚ :=
  setK (setK (setK (setK (setK (setK (setK (setK g
    ("hbbft_perf", "Penalty", c.name) c.penalty)
    ("hbbft_perf", "BBA_Total", c.name) bba_tot)
    ("hbbft_perf", "BBA_Votes", c.name) c.bba_completions)
    ("hbbft_perf", "Seen_Total", c.name) seen_tot)
    ("hbbft_perf", "Seen_Votes", c.name) c.seen_votes)
    ("hbbft_perf", "BBA_Last", c.name) c.last_bba)
    ("hbbft_perf", "Seen_Last", c.name) c.last_seen)
    ("hbbft_perf", "Tenure", c.name) c.tenure

/-- Lines 213–222: the member loop, publishing a member only when it is the
self validator or `ALL_HBBFT` is set. -/
def hbbftGaugeOf (addr : String) (all_hbbft : Bool) (bba_tot seen_tot : ℚ)
    (g : String × String × String → Option ℚ) :
    List ConsensusMember → String × String × String → Option ℚ
  | [] => g
  | c :: rest =>
      hbbftGaugeOf addr all_hbbft bba_tot seen_tot
        (if c.address = addr ∨ all_hbbft = true then memberGauge bba_tot seen_tot g c else g)
        rest

/-- Lines 93–101: the optional host-usage sampling block. -/
def publishSystem (cfg : Config) (host : HostUsage) (hn : String)
    (m : Metrics) : Metrics :=
  if cfg.collect_system_usage then
    { m with system_usage :=
        (setK (setK (setK (setK (setK (setK m.system_usage
          ("CPU", hn) host.cpu_percent)
          ("Memory", hn) host.virtual_memory)
          ("CPU-Steal", hn) host.cpu_steal)
          ("Disk Used", hn) (host.disk_used / host.disk_total))
          ("Disk Free", hn) (host.disk_free / host.disk_total))
          ("Process-Count", hn) host.process_count) }
  else m

/-- Lines 171–178: height publication. -/
def publishHeightInfo (n : String) (hi : Option HeightInfo) (m : Metrics) :
    Metrics :=
  match hi with
  | none => m
  | some h =>
      { m with
          val := setK m.val ("Height", n) (h.sync_height.getD h.height),
          chain_stats := setK m.chain_stats "Height" h.height }

/-- Lines 180–181: in-consensus publication. -/
def publishInConsensus (n : String) (c : Option Bool) (m : Metrics) :
    Metrics :=
  match c with
  | none => m
  | some b => { m with incon := setK m.incon n (boolToQ b) }

/-- Lines 183–184: owner-balance publication. -/
def publishBalanceG (n : String) (b : Option ℚ) (m : Metrics) : Metrics :=
  match b with
  | none => m
  | some q => { m with balance := setK m.balance n q }

/-- Lines 186–187: block-age publication. -/
def publishBlockAge (n : String) (b : Option ℚ) (m : Metrics) : Metrics :=
  match b with
  | none => m
  | some q => { m with blockage := setK m.blockage n q }

/-- Lines 189–190: version Info publication. -/
def publishVersion (n : String) (v : Option String) (m : Metrics) : Metrics :=
  match v with
  | none => m
  | some s => { m with validator_version := setK m.validator_version n s }

/-- Lines 192–203: the ledger block.  On a dict the `validator_ledger`
family is cleared first and rebuilt from the dict, and the
`validator_last_heartbeat` family is written without being cleared.  On
`None` nothing is touched.  On the raw list of the divergent double-fetch
path, `penalty_ledger is not None` is true, so `LEDGER_PENALTY.clear()`
(line 194) still runs — and then `penalty_ledger.items()` (line 196)
raises `AttributeError`, which escapes `stats` and aborts the rest of the
cycle. -/
def publishLedgerBlock (pl : PenaltyLedger) (m : Metrics) :
    Metrics × Option PyErr :=
  match pl with
  | PenaltyLedger.pynone => (m, none)
  | PenaltyLedger.pylist _ =>
      ({ m with ledger_penalty := fun _ => none },
       some PyErr.attributeError)
  | PenaltyLedger.pydict d =>
      ({ m with
          ledger_penalty := ledgerGaugeOf (fun _ => none) d,
          heartbeat := heartbeatGaugeOf m.heartbeat d },
       none)

/-- Lines 205–222: the HBBFT block.  On a resolved snapshot the
`validator_hbbft_perf` family is cleared first and rebuilt from the member
sequence; on `None` nothing is touched. -/
def publishHbbftBlock (addr : String) (all_hbbft : Bool)
    (hp : Option HbbftPerf) (m : Metrics) : Metrics :=
  match hp with
  | none => m
  | some h =>
      { m with hbbft_perf :=
          (hbbftGaugeOf addr all_hbbft h.blocks_since_epoch h.max_seen
            (fun _ => none) h.consensus_members) }

/-- Lines 224–228: peer-book publication.  `peer_book_info[0]` on an empty
response sequence raises `IndexError`, which escapes `stats`. -/
def publishPeerBook (n : String) (pb : Option (List PeerBookEntry))
    (m : Metrics) : Metrics × Option PyErr :=
  match pb with
  | none => (m, none)
  | some [] => (m, some PyErr.indexError)
  | some (e :: _) =>
      ({ m with
          connections := setK m.connections ("connections", n) e.connection_count,
          sessions := setK m.sessions ("sessions", n) ((e.sessions.length : ℚ)) },
       none)

/-- The `stats` function (lines 74–228).  Arguments after the config, host
sample and hostname are the outcomes of the individual RPC calls, in source
order: address, name, `info_height`, `in_consensus`, the two
`ledger_validators()` calls of the `ALL_PENALTIES` branch (line 121 and
line 124), `ledger_validators(address=addr)` (self), `ledger_balance`
(keyed by the owner address it would be called with), `version`,
`block_age`, `hbbft_perf`, `peer_book_self`.  `m0` is the registry state at
entry.  The result is the registry state at exit together with the escaping
exception, if any; when the ledger block raises (raw-list case), the HBBFT
and peer-book blocks never run. -/
def stats (cfg : Config) (host : HostUsage) (hn : String)
    (addrR : Option String) (nameR : Option String)
    (height_info : Option HeightInfo) (in_consensus : Option Bool)
    (lv1 lv2 : Option (List LedgerEntry))
    (ledger_self : Option LedgerEntry)
    (ledger_balance : String → Option ℚ)
    (version : Option String) (block_age : Option ℚ)
    (hbbft : Option HbbftPerf) (peer_book : Option (List PeerBookEntry))
    (m0 : Metrics) : Metrics × Option PyErr :=
  match addrR with
  | none => (m0, none)
  | some addr =>
    match nameR with
    | none => (m0, none)
    | some name =>
      let m1 := publishSystem cfg host hn m0
      let pl := resolveLedger cfg.all_penalties lv1 lv2 ledger_self addr
      let owner : Option String := ledgerOwner pl addr
      let bal : Option ℚ :=
        owner.bind (fun o => (ledger_balance o).map (fun b => b / 100000000))
      let m2 := publishHeightInfo name height_info m1
      let m3 := publishInConsensus name in_consensus m2
      let m4 := publishBalanceG name bal m3
      let m5 := publishBlockAge name block_age m4
      let m6 := publishVersion name version m5
      match publishLedgerBlock pl m6 with
      | (m7, some e) => (m7, some e)
      | (m7, none) =>
        let m8 := publishHbbftBlock addr cfg.all_hbbft hbbft m7
        publishPeerBook name peer_book m8

/-- One iteration of the `__main__` loop body (lines 236–239): `stats` is
called; a `ValueError` escaping it is caught and logged; any other escaping
exception propagates out of the loop and kills the process.  The boolean
records whether the process survives the iteration. -/
def loopStep (cfg : Config) (host : HostUsage) (hn : String)
    (addrR : Option String) (nameR : Option String)
    (height_info : Option HeightInfo) (in_consensus : Option Bool)
    (lv1 lv2 : Option (List LedgerEntry))
    (ledger_self : Option LedgerEntry)
    (ledger_balance : String → Option ℚ)
    (version : Option String) (block_age : Option ℚ)
    (hbbft : Option HbbftPerf) (peer_book : Option (List PeerBookEntry))
    (m0 : Metrics) : Metrics × Bool :=
  match stats cfg host hn addrR nameR height_info in_consensus
      lv1 lv2 ledger_self ledger_balance version block_age
      hbbft peer_book m0 with
  | (m, none) => (m, true)
  | (m, some PyErr.valueError) => (m, true)
  | (m, some PyErr.indexError) => (m, false)
  | (m, some PyErr.attributeError) => (m, false)

/-! ### Concrete example values, used to instantiate the theorems below -/

/-- A staked ledger entry for the self validator. -/
def entEx : LedgerEntry :=
  { address := "a1", name := "n1", owner_address := "o1",
    tenure_penalty := 10, dkg_penalty := 2, performance_penalty := 3,
    total_penalty := 15, last_heartbeat := 100, status := "staked" }

/-- A staked ledger entry for a second validator. -/
def entEx2 : LedgerEntry :=
  { address := "a2", name := "n2", owner_address := "o2",
    tenure_penalty := 0, dkg_penalty := 2, performance_penalty := 3,
    total_penalty := 5, last_heartbeat := 90, status := "staked" }

/-- A consensus member record for the self validator. -/
def memSelf : ConsensusMember :=
  { address := "a1", name := "n1", penalty := 1, bba_completions := 2,
    seen_votes := 3, last_bba := 4, last_seen := 5, tenure := 6 }

/-- A consensus member record for a different validator. -/
def memOther : ConsensusMember :=
  { address := "a2", name := "n2", penalty := 7, bba_completions := 8,
    seen_votes := 9, last_bba := 10, last_seen := 11, tenure := 12 }

/-- A height response with a distinct sync height. -/
def hiEx : HeightInfo := { height := 100, sync_height := some 95 }

/-- An HBBFT snapshot containing only the self member. -/
def hpExSelf : HbbftPerf :=
  { blocks_since_epoch := 7, max_seen := 9, consensus_members := [memSelf] }

/-- An HBBFT snapshot containing only a non-self member. -/
def hpExOther : HbbftPerf :=
  { blocks_since_epoch := 7, max_seen := 9, consensus_members := [memOther] }

/-- A peer-book entry with two sessions. -/
def pbEx : PeerBookEntry := { connection_count := 4, sessions := ["s1", "s2"] }

/-- A balance fetch that succeeds only for owner address `o1`. -/
def lbEx : String → Option ℚ := fun o => if o = "o1" then some 12345 else none

/-- A host sample. -/
def hostEx : HostUsage :=
  { cpu_percent := 50, virtual_memory := 60, cpu_steal := 1,
    disk_used := 30, disk_free := 70, disk_total := 100,
    process_count := 200 }

/-- Both broaden flags and the host-usage flag off. -/
def cfgOff : Config :=
  { collect_system_usage := false, all_hbbft := false, all_penalties := false }

/-- All three flags on. -/
def cfgOn : Config :=
  { collect_system_usage := true, all_hbbft := true, all_penalties := true }

/-- A registry in which no labelled child has ever been set. -/
def emptyMetrics : Metrics :=
  { chain_stats := fun _ => none, val := fun _ => none,
    incon := fun _ => none, blockage := fun _ => none,
    heartbeat := fun _ => none, hbbft_perf := fun _ => none,
    connections := fun _ => none, sessions := fun _ => none,
    ledger_penalty := fun _ => none, validator_version := fun _ => none,
    balance := fun _ => none, system_usage := fun _ => none }

/-- A registry holding a stale ledger-penalty, HBBFT and heartbeat child for
a "ghost" entity that is absent from every example fetch above. -/
def ghostMetrics : Metrics :=
  { emptyMetrics with
      ledger_penalty :=
        (setK emptyMetrics.ledger_penalty
          ("ledger_penalties", "tenure", "ghost", "ga") 42),
      hbbft_perf :=
        (setK emptyMetrics.hbbft_perf ("hbbft_perf", "Penalty", "ghost") 43),
      heartbeat := (setK emptyMetrics.heartbeat ("ghost", "ga") 44) }

/-! ### Basic lemmas about `setK` -/

theorem setK_same {α β : Type} [DecidableEq α] (f : α → Option β) (k : α)
    (v : β) : setK f k v k = some v := by
  simp [setK]

theorem setK_ne {α β : Type} [DecidableEq α] (f : α → Option β) (k : α)
    (v : β) (x : α) (h : x ≠ k) : setK f k v x = f x := by
  simp [setK, h]

theorem setK_ne_none {α β : Type} [DecidableEq α] (f : α → Option β) (k : α)
    (v : β) (x : α) (h : f x ≠ none) : setK f k v x ≠ none := by
  by_cases hx : x = k <;> simp [setK, hx, h]

/-- Peeling one 4-label write: a non-`none` sample either was already there
or sits at the written (name, address). -/
theorem setK4_support (g : String × String × String × String → Option ℚ)
    (a1 a2 nm0 ad0 : String) (v : ℚ) (rt st nm ad : String)
    (h : setK g (a1, a2, nm0, ad0) v (rt, st, nm, ad) ≠ none) :
    g (rt, st, nm, ad) ≠ none ∨ (nm = nm0 ∧ ad = ad0) := by
  by_cases hx : (rt, st, nm, ad) = (a1, a2, nm0, ad0)
  · simp only [Prod.mk.injEq] at hx
    exact Or.inr ⟨hx.2.2.1, hx.2.2.2⟩
  · rw [setK_ne _ _ _ _ hx] at h
    exact Or.inl h

/-- Peeling one 3-label write. -/
theorem setK3_support (g : String × String × String → Option ℚ)
    (a1 a2 nm0 : String) (v : ℚ) (rt st nm : String)
    (h : setK g (a1, a2, nm0) v (rt, st, nm) ≠ none) :
    g (rt, st, nm) ≠ none ∨ nm = nm0 := by
  by_cases hx : (rt, st, nm) = (a1, a2, nm0)
  · simp only [Prod.mk.injEq] at hx
    exact Or.inr hx.2.2
  · rw [setK_ne _ _ _ _ hx] at h
    exact Or.inl h

/-! ### Lemmas about the modelled Python dict -/

theorem mem_dictInsert (k : String) (v : LedgerEntry)
    (d : List (String × LedgerEntry)) (p : String × LedgerEntry)
    (h : p ∈ dictInsert k v d) : p ∈ d ∨ p = (k, v) := by
  induction d with
  | nil => simpa [dictInsert] using h
  | cons q rest ih =>
    rw [dictInsert] at h
    by_cases hq : q.1 = k
    · simp only [hq, if_pos rfl] at h
      rcases List.mem_cons.mp h with h | h
      · exact Or.inr h
      · exact Or.inl (List.mem_cons_of_mem _ h)
    · simp only [if_neg hq] at h
      rcases List.mem_cons.mp h with h | h
      · exact Or.inl (h ▸ List.mem_cons_self _ _)
      · rcases ih h with h | h
        · exact Or.inl (List.mem_cons_of_mem _ h)
        · exact Or.inr h

theorem dictInsert_keys_sub (k : String) (v : LedgerEntry)
    (d : List (String × LedgerEntry)) (x : String)
    (h : x ∈ (dictInsert k v d).map Prod.fst) :
    x = k ∨ x ∈ d.map Prod.fst := by
  rcases List.mem_map.mp h with ⟨p, hp, hx⟩
  rcases mem_dictInsert k v d p hp with hp | hp
  · exact Or.inr (hx ▸ List.mem_map_of_mem Prod.fst hp)
  · subst hp
    exact Or.inl hx.symm

theorem dictInsert_keys_nodup (k : String) (v : LedgerEntry)
    (d : List (String × LedgerEntry)) (h : (d.map Prod.fst).Nodup) :
    ((dictInsert k v d).map Prod.fst).Nodup := by
  induction d with
  | nil => simp [dictInsert]
  | cons q rest ih =>
    rw [dictInsert]
    simp only [List.map_cons, List.nodup_cons] at h
    by_cases hq : q.1 = k
    · rw [if_pos hq]
      simp only [List.map_cons, List.nodup_cons]
      exact ⟨hq ▸ h.1, h.2⟩
    · rw [if_neg hq]
      simp only [List.map_cons, List.nodup_cons]
      refine ⟨fun hc => ?_, ih h.2⟩
      rcases dictInsert_keys_sub k v rest q.1 hc with hc | hc
      · exact hq hc
      · exact h.1 hc

theorem dictInsert_fst_addr (k : String) (v : LedgerEntry)
    (d : List (String × LedgerEntry)) (hk : k = v.address)
    (h : ∀ p ∈ d, p.1 = p.2.address) :
    ∀ p ∈ dictInsert k v d, p.1 = p.2.address := by
  intro p hp
  rcases mem_dictInsert k v d p hp with hp | hp
  · exact h p hp
  · subst hp
    exact hk

theorem dictOfLedgerAux_keys_nodup (l : List LedgerEntry) :
    ∀ d : List (String × LedgerEntry), (d.map Prod.fst).Nodup →
      ((dictOfLedgerAux d l).map Prod.fst).Nodup := by
  induction l with
  | nil => intro d h; simpa [dictOfLedgerAux] using h
  | cons v rest ih =>
    intro d h
    rw [dictOfLedgerAux]
    exact ih _ (dictInsert_keys_nodup _ _ _ h)

theorem dictOfLedgerAux_fst_addr (l : List LedgerEntry) :
    ∀ d : List (String × LedgerEntry), (∀ p ∈ d, p.1 = p.2.address) →
      ∀ p ∈ dictOfLedgerAux d l, p.1 = p.2.address := by
  induction l with
  | nil => intro d h; simpa [dictOfLedgerAux] using h
  | cons v rest ih =>
    intro d h
    rw [dictOfLedgerAux]
    exact ih _ (dictInsert_fst_addr _ _ _ rfl h)

theorem mem_dictOfLedgerAux (l : List LedgerEntry) :
    ∀ (d : List (String × LedgerEntry)) (p : String × LedgerEntry),
      p ∈ dictOfLedgerAux d l → p ∈ d ∨ ∃ v ∈ l, p = (v.address, v) := by
  induction l with
  | nil => intro d p h; exact Or.inl (by simpa [dictOfLedgerAux] using h)
  | cons v rest ih =>
    intro d p h
    rw [dictOfLedgerAux] at h
    rcases ih _ p h with h | h
    · rcases mem_dictInsert _ _ _ _ h with h | h
      · exact Or.inl h
      · exact Or.inr ⟨v, List.mem_cons_self _ _, h⟩
    · rcases h with ⟨w, hw, hp⟩
      exact Or.inr ⟨w, List.mem_cons_of_mem _ hw, hp⟩

theorem dictInsert_eq_append (k : String) (v : LedgerEntry)
    (d : List (String × LedgerEntry)) (h : k ∉ d.map Prod.fst) :
    dictInsert k v d = d ++ [(k, v)] := by
  induction d with
  | nil => simp [dictInsert]
  | cons q rest ih =>
    simp only [List.map_cons, List.mem_cons, not_or] at h
    rw [dictInsert, if_neg (fun hc => h.1 hc.symm), ih h.2]
    simp

theorem dictOfLedgerAux_eq_map (l : List LedgerEntry) :
    ∀ d : List (String × LedgerEntry),
      (∀ v ∈ l, v.address ∉ d.map Prod.fst) →
      (l.map (fun v => v.address)).Nodup →
      dictOfLedgerAux d l = d ++ l.map (fun v => (v.address, v)) := by
  induction l with
  | nil => intro d _ _; simp [dictOfLedgerAux]
  | cons v rest ih =>
    intro d hd hnd
    simp only [List.map_cons, List.nodup_cons] at hnd
    rw [dictOfLedgerAux,
      dictInsert_eq_append _ _ _ (hd v (List.mem_cons_self _ _)),
      ih _ ?_ hnd.2]
    · simp
    · intro w hw
      simp only [List.map_append, List.mem_append, List.map_cons,
        List.map_nil, List.mem_singleton, not_or]
      refine ⟨hd w (List.mem_cons_of_mem _ hw), fun hc => ?_⟩
      exact hnd.1 (hc ▸ List.mem_map_of_mem (fun v => v.address) hw)

/-- With pairwise-distinct addresses the comprehension dict is just the
in-order list of (address, entry) pairs. -/
theorem dictOfLedger_eq_map (l : List LedgerEntry)
    (hnd : (l.map (fun v => v.address)).Nodup) :
    dictOfLedger l = l.map (fun v => (v.address, v)) := by
  rw [dictOfLedger, dictOfLedgerAux_eq_map l [] (by simp) hnd]
  simp

/-- A resolved penalty ledger always has pairwise-distinct entry addresses:
in the broadened branch the dict is keyed by address, in the self branch it
is a singleton. -/
theorem resolveLedger_addr_nodup (ap : Bool)
    (lv1 lv2 : Option (List LedgerEntry)) (ls : Option LedgerEntry)
    (a : String) (d : List (String × LedgerEntry))
    (h : resolveLedger ap lv1 lv2 ls a = PenaltyLedger.pydict d) :
    (d.map (fun p => p.2.address)).Nodup := by
  rw [resolveLedger.eq_def] at h
  by_cases hap : ap = true
  · rw [if_pos hap] at h
    rcases lv1 with _ | l1
    · exact absurd h (by simp)
    · rcases lv2 with _ | l
      · exact absurd h (by simp)
      · injection h with h
        subst h
        have hkeys := dictOfLedgerAux_keys_nodup
          (l.filter (fun v => v.status == "staked")) [] (by simp)
        have haddr := dictOfLedgerAux_fst_addr
          (l.filter (fun v => v.status == "staked")) [] (by simp)
        rw [dictOfLedger] at *
        have : (dictOfLedgerAux [] (l.filter (fun v => v.status == "staked"))).map
            (fun p => p.2.address) =
            (dictOfLedgerAux [] (l.filter (fun v => v.status == "staked"))).map
            Prod.fst := by
          apply List.map_congr_left
          intro p hp
          exact (haddr p hp).symm
        rw [this]
        exact hkeys
  · rw [if_neg hap] at h
    rcases ls with _ | e
    · exact absurd h (by simp)
    · injection h with h
      subst h
      simp

/-! ### Lemmas about the ledger gauge family -/

/-- A write of one ledger entry leaves every label with a different
(name, address) pair untouched. -/
theorem ledgerEntryGauge_frame (g : String × String × String × String → Option ℚ)
    (e : LedgerEntry) (rt st nm ad : String)
    (hne : ¬(nm = e.name ∧ ad = e.address)) :
    ledgerEntryGauge g e (rt, st, nm, ad) = g (rt, st, nm, ad) := by
  have hk : ∀ a1 a2 : String, (rt, st, nm, ad) ≠ (a1, a2, e.name, e.address) := by
    intro a1 a2 hc
    simp only [Prod.mk.injEq] at hc
    exact hne ⟨hc.2.2.1, hc.2.2.2⟩
  rw [ledgerEntryGauge]
  split_ifs with ht
  · rw [setK_ne _ _ _ _ (hk _ _), setK_ne _ _ _ _ (hk _ _),
      setK_ne _ _ _ _ (hk _ _), setK_ne _ _ _ _ (hk _ _),
      setK_ne _ _ _ _ (hk _ _)]
  · rw [setK_ne _ _ _ _ (hk _ _), setK_ne _ _ _ _ (hk _ _),
      setK_ne _ _ _ _ (hk _ _), setK_ne _ _ _ _ (hk _ _)]

theorem ledgerEntryGauge_support (g : String × String × String × String → Option ℚ)
    (e : LedgerEntry) (rt st nm ad : String)
    (h : ledgerEntryGauge g e (rt, st, nm, ad) ≠ none) :
    g (rt, st, nm, ad) ≠ none ∨ (nm = e.name ∧ ad = e.address) := by
  by_cases hm : nm = e.name ∧ ad = e.address
  · exact Or.inr hm
  · rw [ledgerEntryGauge_frame g e rt st nm ad hm] at h
    exact Or.inl h

/-- Values written for one entry, assuming none of its labels was set yet:
the four penalty samples, and the ratio sample exactly under the
`tenure_penalty > 0` guard. -/
theorem ledgerEntryGauge_values (g : String × String × String × String → Option ℚ)
    (e : LedgerEntry) (h0 : ∀ rt st nm, g (rt, st, nm, e.address) = none) :
    ledgerEntryGauge g e ("ledger_penalties", "tenure", e.name, e.address)
        = some e.tenure_penalty ∧
    ledgerEntryGauge g e ("ledger_penalties", "dkg", e.name, e.address)
        = some e.dkg_penalty ∧
    ledgerEntryGauge g e ("ledger_penalties", "performance", e.name, e.address)
        = some e.performance_penalty ∧
    ledgerEntryGauge g e ("ledger_penalties", "total", e.name, e.address)
        = some e.total_penalty ∧
    (e.tenure_penalty > 0 →
      ledgerEntryGauge g e ("ledger_penalties", "perf_tenure_ratio", e.name, e.address)
        = some ((e.performance_penalty + e.dkg_penalty) / e.tenure_penalty)) ∧
    (¬ e.tenure_penalty > 0 →
      ledgerEntryGauge g e ("ledger_penalties", "perf_tenure_ratio", e.name, e.address)
        = none) := by
  rw [ledgerEntryGauge]
  split_ifs with ht
  · refine ⟨?_, ?_, ?_, ?_, fun _ => ?_, fun hc => absurd ht hc⟩ <;>
      simp [setK, Prod.mk.injEq]
  · refine ⟨?_, ?_, ?_, ?_, fun hc => absurd hc ht, fun _ => ?_⟩ <;>
      simp [setK, Prod.mk.injEq, h0]

theorem ledgerGaugeOf_support (d : List (String × LedgerEntry)) :
    ∀ (g : String × String × String × String → Option ℚ) (rt st nm ad : String),
      ledgerGaugeOf g d (rt, st, nm, ad) ≠ none →
      g (rt, st, nm, ad) ≠ none ∨ ∃ p ∈ d, nm = p.2.name ∧ ad = p.2.address := by
  induction d with
  | nil =>
    intro g rt st nm ad h
    rw [ledgerGaugeOf] at h
    exact Or.inl h
  | cons p rest ih =>
    intro g rt st nm ad h
    rw [ledgerGaugeOf] at h
    rcases ih _ _ _ _ _ h with h | h
    · rcases ledgerEntryGauge_support _ _ _ _ _ _ h with h | h
      · exact Or.inl h
      · exact Or.inr ⟨p, List.mem_cons_self _ _, h⟩
    · rcases h with ⟨q, hq, hm⟩
      exact Or.inr ⟨q, List.mem_cons_of_mem _ hq, hm⟩

theorem ledgerGaugeOf_frame_addr (d : List (String × LedgerEntry)) :
    ∀ (g : String × String × String × String → Option ℚ) (rt st nm ad : String),
      (∀ p ∈ d, p.2.address ≠ ad) →
      ledgerGaugeOf g d (rt, st, nm, ad) = g (rt, st, nm, ad) := by
  induction d with
  | nil => intro g rt st nm ad _; rw [ledgerGaugeOf]
  | cons p rest ih =>
    intro g rt st nm ad hne
    rw [ledgerGaugeOf, ih _ _ _ _ _ (fun q hq => hne q (List.mem_cons_of_mem _ hq)),
      ledgerEntryGauge_frame]
    intro hc
    exact hne p (List.mem_cons_self _ _) hc.2.symm

/-- The published samples of every entry of a resolved penalty-ledger dict,
when the entries' addresses are pairwise distinct and the gauge family was
cleared before the loop. -/
theorem ledgerGaugeOf_values (d : List (String × LedgerEntry)) :
    ∀ (g : String × String × String × String → Option ℚ),
      ((d.map (fun p => p.2.address)).Nodup) →
      (∀ q ∈ d, ∀ rt st nm, g (rt, st, nm, q.2.address) = none) →
      ∀ p ∈ d,
        ledgerGaugeOf g d ("ledger_penalties", "tenure", p.2.name, p.2.address)
            = some p.2.tenure_penalty ∧
        ledgerGaugeOf g d ("ledger_penalties", "dkg", p.2.name, p.2.address)
            = some p.2.dkg_penalty ∧
        ledgerGaugeOf g d ("ledger_penalties", "performance", p.2.name, p.2.address)
            = some p.2.performance_penalty ∧
        ledgerGaugeOf g d ("ledger_penalties", "total", p.2.name, p.2.address)
            = some p.2.total_penalty ∧
        (p.2.tenure_penalty > 0 →
          ledgerGaugeOf g d ("ledger_penalties", "perf_tenure_ratio", p.2.name, p.2.address)
            = some ((p.2.performance_penalty + p.2.dkg_penalty) / p.2.tenure_penalty)) ∧
        (¬ p.2.tenure_penalty > 0 →
          ledgerGaugeOf g d ("ledger_penalties", "perf_tenure_ratio", p.2.name, p.2.address)
            = none) := by
  induction d with
  | nil => intro g _ _ p hp; exact absurd hp (List.not_mem_nil p)
  | cons q rest ih =>
    intro g hnd h0 p hp
    simp only [List.map_cons, List.nodup_cons] at hnd
    rcases List.mem_cons.mp hp with hp | hp
    · subst hp
      have hrest : ∀ p' ∈ rest, p'.2.address ≠ p.2.address := by
        intro p' hp' hc
        exact hnd.1 (hc ▸ List.mem_map_of_mem (fun r => r.2.address) hp')
      have hv := ledgerEntryGauge_values g p.2 (h0 p (List.mem_cons_self _ _))
      rw [ledgerGaugeOf]
      refine ⟨?_, ?_, ?_, ?_, fun ht => ?_, fun ht => ?_⟩ <;>
        rw [ledgerGaugeOf_frame_addr rest _ _ _ _ _ hrest]
      · exact hv.1
      · exact hv.2.1
      · exact hv.2.2.1
      · exact hv.2.2.2.1
      · exact hv.2.2.2.2.1 ht
      · exact hv.2.2.2.2.2 ht
    · have hqaddr : ∀ p' ∈ rest, p'.2.address ≠ q.2.address → True := fun _ _ _ => trivial
      rw [ledgerGaugeOf]
      refine ih _ hnd.2 ?_ p hp
      intro q' hq' rt st nm
      have hne : ¬(nm = q.2.name ∧ q'.2.address = q.2.address) := by
        intro hc
        exact hnd.1 (hc.2 ▸ List.mem_map_of_mem (fun r => r.2.address) hq')
      rw [ledgerEntryGauge_frame _ _ _ _ _ _ hne]
      exact h0 q' (List.mem_cons_of_mem _ hq') rt st nm

/-! ### Lemmas about the heartbeat gauge family -/

theorem heartbeatGaugeOf_ne_none (d : List (String × LedgerEntry)) :
    ∀ (g : String × String → Option ℚ) (k : String × String),
      g k ≠ none → heartbeatGaugeOf g d k ≠ none := by
  induction d with
  | nil => intro g k h; rw [heartbeatGaugeOf]; exact h
  | cons p rest ih =>
    intro g k h
    rw [heartbeatGaugeOf]
    exact ih _ _ (setK_ne_none _ _ _ _ h)

theorem heartbeatGaugeOf_frame (d : List (String × LedgerEntry)) :
    ∀ (g : String × String → Option ℚ) (k : String × String),
      (∀ p ∈ d, (p.2.name, p.2.address) ≠ k) →
      heartbeatGaugeOf g d k = g k := by
  induction d with
  | nil => intro g k _; rw [heartbeatGaugeOf]
  | cons p rest ih =>
    intro g k hne
    rw [heartbeatGaugeOf,
      ih _ _ (fun q hq => hne q (List.mem_cons_of_mem _ hq)),
      setK_ne _ _ _ _ (fun hc => hne p (List.mem_cons_self _ _) hc.symm)]

/-! ### Lemmas about the HBBFT gauge family -/

theorem memberGauge_frame (bt st : ℚ)
    (g : String × String × String → Option ℚ) (c : ConsensusMember)
    (rt s2 nm : String) (hnm : nm ≠ c.name) :
    memberGauge bt st g c (rt, s2, nm) = g (rt, s2, nm) := by
  have hk : ∀ a1 a2 : String, (rt, s2, nm) ≠ (a1, a2, c.name) := by
    intro a1 a2 hc
    simp only [Prod.mk.injEq] at hc
    exact hnm hc.2.2
  rw [memberGauge, setK_ne _ _ _ _ (hk _ _), setK_ne _ _ _ _ (hk _ _),
    setK_ne _ _ _ _ (hk _ _), setK_ne _ _ _ _ (hk _ _),
    setK_ne _ _ _ _ (hk _ _), setK_ne _ _ _ _ (hk _ _),
    setK_ne _ _ _ _ (hk _ _), setK_ne _ _ _ _ (hk _ _)]

theorem memberGauge_support (bt st : ℚ)
    (g : String × String × String → Option ℚ) (c : ConsensusMember)
    (rt s2 nm : String) (h : memberGauge bt st g c (rt, s2, nm) ≠ none) :
    g (rt, s2, nm) ≠ none ∨ nm = c.name := by
  by_cases hnm : nm = c.name
  · exact Or.inr hnm
  · rw [memberGauge_frame bt st g c rt s2 nm hnm] at h
    exact Or.inl h

theorem memberGauge_ne_none (bt st : ℚ)
    (g : String × String × String → Option ℚ) (c : ConsensusMember)
    (lbl : String × String × String) (h : g lbl ≠ none) :
    memberGauge bt st g c lbl ≠ none := by
  rw [memberGauge]
  apply setK_ne_none
  apply setK_ne_none
  apply setK_ne_none
  apply setK_ne_none
  apply setK_ne_none
  apply setK_ne_none
  apply setK_ne_none
  apply setK_ne_none
  exact h

theorem memberGauge_penalty (bt st : ℚ)
    (g : String × String × String → Option ℚ) (c : ConsensusMember) :
    memberGauge bt st g c ("hbbft_perf", "Penalty", c.name) = some c.penalty := by
  simp [memberGauge, setK, Prod.mk.injEq]

theorem hbbftGaugeOf_ne_none (addr : String) (ah : Bool) (bt st : ℚ)
    (ms : List ConsensusMember) :
    ∀ (g : String × String × String → Option ℚ) (lbl : String × String × String),
      g lbl ≠ none → hbbftGaugeOf addr ah bt st g ms lbl ≠ none := by
  induction ms with
  | nil => intro g lbl h; rw [hbbftGaugeOf]; exact h
  | cons c rest ih =>
    intro g lbl h
    rw [hbbftGaugeOf]
    by_cases hc : c.address = addr ∨ ah = true
    · rw [if_pos hc]
      exact ih _ _ (memberGauge_ne_none _ _ _ _ _ h)
    · rw [if_neg hc]
      exact ih _ _ h

theorem hbbftGaugeOf_support (addr : String) (ah : Bool) (bt st : ℚ)
    (ms : List ConsensusMember) :
    ∀ (g : String × String × String → Option ℚ) (rt s2 nm : String),
      hbbftGaugeOf addr ah bt st g ms (rt, s2, nm) ≠ none →
      g (rt, s2, nm) ≠ none ∨
        ∃ c ∈ ms, (c.address = addr ∨ ah = true) ∧ nm = c.name := by
  induction ms with
  | nil =>
    intro g rt s2 nm h
    rw [hbbftGaugeOf] at h
    exact Or.inl h
  | cons c rest ih =>
    intro g rt s2 nm h
    rw [hbbftGaugeOf] at h
    by_cases hc : c.address = addr ∨ ah = true
    · rw [if_pos hc] at h
      rcases ih _ _ _ _ h with h | h
      · rcases memberGauge_support _ _ _ _ _ _ _ h with h | h
        · exact Or.inl h
        · exact Or.inr ⟨c, List.mem_cons_self _ _, hc, h⟩
      · rcases h with ⟨c', hc', hp⟩
        exact Or.inr ⟨c', List.mem_cons_of_mem _ hc', hp⟩
    · rw [if_neg hc] at h
      rcases ih _ _ _ _ h with h | h
      · exact Or.inl h
      · rcases h with ⟨c', hc', hp⟩
        exact Or.inr ⟨c', List.mem_cons_of_mem _ hc', hp⟩

theorem hbbftGaugeOf_penalty (addr : String) (ah : Bool) (bt st : ℚ)
    (ms : List ConsensusMember) :
    ∀ (g : String × String × String → Option ℚ) (c : ConsensusMember),
      c ∈ ms → (c.address = addr ∨ ah = true) →
      hbbftGaugeOf addr ah bt st g ms ("hbbft_perf", "Penalty", c.name) ≠ none := by
  induction ms with
  | nil => intro g c hc _; exact absurd hc (List.not_mem_nil c)
  | cons c' rest ih =>
    intro g c hc hcond
    rw [hbbftGaugeOf]
    rcases List.mem_cons.mp hc with hc | hc
    · subst hc
      rw [if_pos hcond]
      apply hbbftGaugeOf_ne_none
      rw [memberGauge_penalty]
      simp
    · by_cases hcond' : c'.address = addr ∨ ah = true
      · rw [if_pos hcond']
        exact ih _ _ hc hcond
      · rw [if_neg hcond']
        exact ih _ _ hc hcond

/-! ### Normal forms of the publication blocks -/

theorem publishSystem_eq (cfg : Config) (host : HostUsage) (hn : String)
    (m : Metrics) :
    publishSystem cfg host hn m =
      { m with system_usage :=
          (if cfg.collect_system_usage = true then
            (setK (setK (setK (setK (setK (setK m.system_usage
              ("CPU", hn) host.cpu_percent)
              ("Memory", hn) host.virtual_memory)
              ("CPU-Steal", hn) host.cpu_steal)
              ("Disk Used", hn) (host.disk_used / host.disk_total))
              ("Disk Free", hn) (host.disk_free / host.disk_total))
              ("Process-Count", hn) host.process_count)
          else m.system_usage) } := by
  by_cases h : cfg.collect_system_usage = true <;>
    simp [publishSystem, h]

theorem publishHeightInfo_eq (n : String) (hi : Option HeightInfo)
    (m : Metrics) :
    publishHeightInfo n hi m =
      { m with
          val := (match hi with
            | none => m.val
            | some h => setK m.val ("Height", n) (h.sync_height.getD h.height)),
          chain_stats := (match hi with
            | none => m.chain_stats
            | some h => setK m.chain_stats "Height" h.height) } := by
  cases hi <;> rfl

theorem publishInConsensus_eq (n : String) (c : Option Bool) (m : Metrics) :
    publishInConsensus n c m =
      { m with incon := (match c with
          | none => m.incon
          | some b => setK m.incon n (boolToQ b)) } := by
  cases c <;> rfl

theorem publishBalanceG_eq (n : String) (b : Option ℚ) (m : Metrics) :
    publishBalanceG n b m =
      { m with balance := (match b with
          | none => m.balance
          | some q => setK m.balance n q) } := by
  cases b <;> rfl

theorem publishBlockAge_eq (n : String) (b : Option ℚ) (m : Metrics) :
    publishBlockAge n b m =
      { m with blockage := (match b with
          | none => m.blockage
          | some q => setK m.blockage n q) } := by
  cases b <;> rfl

theorem publishVersion_eq (n : String) (v : Option String) (m : Metrics) :
    publishVersion n v m =
      { m with validator_version := (match v with
          | none => m.validator_version
          | some s => setK m.validator_version n s) } := by
  cases v <;> rfl

theorem publishLedgerBlock_eq (pl : PenaltyLedger) (m : Metrics) :
    publishLedgerBlock pl m =
      ({ m with
          ledger_penalty := (match pl with
            | PenaltyLedger.pynone => m.ledger_penalty
            | PenaltyLedger.pylist _ => (fun _ => none)
            | PenaltyLedger.pydict d => ledgerGaugeOf (fun _ => none) d),
          heartbeat := (match pl with
            | PenaltyLedger.pydict d => heartbeatGaugeOf m.heartbeat d
            | _ => m.heartbeat) },
       (match pl with
        | PenaltyLedger.pylist _ => some PyErr.attributeError
        | _ => none)) := by
  cases pl <;> rfl

theorem publishHbbftBlock_eq (addr : String) (ah : Bool)
    (hp : Option HbbftPerf) (m : Metrics) :
    publishHbbftBlock addr ah hp m =
      { m with hbbft_perf := (match hp with
          | none => m.hbbft_perf
          | some h =>
              hbbftGaugeOf addr ah h.blocks_since_epoch h.max_seen
                (fun _ => none) h.consensus_members) } := by
  cases hp <;> rfl

theorem publishPeerBook_eq (n : String) (pb : Option (List PeerBookEntry))
    (m : Metrics) :
    publishPeerBook n pb m =
      ({ m with
          connections := (match pb with
            | some (e :: _) => setK m.connections ("connections", n) e.connection_count
            | _ => m.connections),
          sessions := (match pb with
            | some (e :: _) => setK m.sessions ("sessions", n) ((e.sessions.length : ℚ))
            | _ => m.sessions) },
       (match pb with
        | some [] => some PyErr.indexError
        | _ => none)) := by
  rcases pb with _ | ⟨_ | ⟨e, rest⟩⟩ <;> rfl

/-! ### Per-field characterization of one `stats` cycle past the identity gate -/

/-- The owner-balance value computed in a cycle (lines 131–139): owner
address looked up from the resolved ledger, then raw balance divided by
the exact rational `1.0e8`. -/
def cycleBalance (pl : PenaltyLedger) (lb : String → Option ℚ)
    (a : String) : Option ℚ :=
  (ledgerOwner pl a).bind (fun o => (lb o).map (fun b => b / 100000000))

theorem stats_identity_none (cfg : Config) (host : HostUsage) (hn : String)
    (nameR : Option String) (hi : Option HeightInfo) (ic : Option Bool)
    (lv1 lv2 : Option (List LedgerEntry)) (ls : Option LedgerEntry)
    (lb : String → Option ℚ) (v : Option String) (ba : Option ℚ)
    (hp : Option HbbftPerf) (pb : Option (List PeerBookEntry)) (m0 : Metrics) :
    stats cfg host hn none nameR hi ic lv1 lv2 ls lb v ba hp pb m0 = (m0, none) :=
  rfl

theorem stats_name_none (cfg : Config) (host : HostUsage) (hn a : String)
    (hi : Option HeightInfo) (ic : Option Bool)
    (lv1 lv2 : Option (List LedgerEntry)) (ls : Option LedgerEntry)
    (lb : String → Option ℚ) (v : Option String) (ba : Option ℚ)
    (hp : Option HbbftPerf) (pb : Option (List PeerBookEntry)) (m0 : Metrics) :
    stats cfg host hn (some a) none hi ic lv1 lv2 ls lb v ba hp pb m0 = (m0, none) :=
  rfl

variable (cfg : Config) (host : HostUsage) (hn a n : String)
variable (hi : Option HeightInfo) (ic : Option Bool)
variable (lv1 lv2 : Option (List LedgerEntry)) (ls : Option LedgerEntry)
variable (lb : String → Option ℚ) (v : Option String) (ba : Option ℚ)
variable (hp : Option HbbftPerf) (pb : Option (List PeerBookEntry))
variable (m0 : Metrics)

theorem stats_incon_eq :
    (stats cfg host hn (some a) (some n) hi ic lv1 lv2 ls lb v ba hp pb m0).1.incon =
      (match ic with
        | none => m0.incon
        | some b => setK m0.incon n (boolToQ b)) := by
  rcases hpl : resolveLedger cfg.all_penalties lv1 lv2 ls a with _ | l | d <;>
    simp only [stats, publishSystem_eq, publishHeightInfo_eq,
      publishInConsensus_eq, publishBalanceG_eq, publishBlockAge_eq,
      publishVersion_eq, publishLedgerBlock_eq, publishHbbftBlock_eq,
      publishPeerBook_eq, hpl]

theorem stats_val_eq :
    (stats cfg host hn (some a) (some n) hi ic lv1 lv2 ls lb v ba hp pb m0).1.val =
      (match hi with
        | none => m0.val
        | some h => setK m0.val ("Height", n) (h.sync_height.getD h.height)) := by
  rcases hpl : resolveLedger cfg.all_penalties lv1 lv2 ls a with _ | l | d <;>
    simp only [stats, publishSystem_eq, publishHeightInfo_eq,
      publishInConsensus_eq, publishBalanceG_eq, publishBlockAge_eq,
      publishVersion_eq, publishLedgerBlock_eq, publishHbbftBlock_eq,
      publishPeerBook_eq, hpl]

theorem stats_chain_eq :
    (stats cfg host hn (some a) (some n) hi ic lv1 lv2 ls lb v ba hp pb m0).1.chain_stats =
      (match hi with
        | none => m0.chain_stats
        | some h => setK m0.chain_stats "Height" h.height) := by
  rcases hpl : resolveLedger cfg.all_penalties lv1 lv2 ls a with _ | l | d <;>
    simp only [stats, publishSystem_eq, publishHeightInfo_eq,
      publishInConsensus_eq, publishBalanceG_eq, publishBlockAge_eq,
      publishVersion_eq, publishLedgerBlock_eq, publishHbbftBlock_eq,
      publishPeerBook_eq, hpl]

theorem stats_balance_eq :
    (stats cfg host hn (some a) (some n) hi ic lv1 lv2 ls lb v ba hp pb m0).1.balance =
      (match cycleBalance (resolveLedger cfg.all_penalties lv1 lv2 ls a) lb a with
        | none => m0.balance
        | some q => setK m0.balance n q) := by
  rcases hpl : resolveLedger cfg.all_penalties lv1 lv2 ls a with _ | l | d <;>
    simp only [stats, cycleBalance, publishSystem_eq, publishHeightInfo_eq,
      publishInConsensus_eq, publishBalanceG_eq, publishBlockAge_eq,
      publishVersion_eq, publishLedgerBlock_eq, publishHbbftBlock_eq,
      publishPeerBook_eq, hpl]

theorem stats_blockage_eq :
    (stats cfg host hn (some a) (some n) hi ic lv1 lv2 ls lb v ba hp pb m0).1.blockage =
      (match ba with
        | none => m0.blockage
        | some q => setK m0.blockage n q) := by
  rcases hpl : resolveLedger cfg.all_penalties lv1 lv2 ls a with _ | l | d <;>
    simp only [stats, publishSystem_eq, publishHeightInfo_eq,
      publishInConsensus_eq, publishBalanceG_eq, publishBlockAge_eq,
      publishVersion_eq, publishLedgerBlock_eq, publishHbbftBlock_eq,
      publishPeerBook_eq, hpl]

theorem stats_version_eq :
    (stats cfg host hn (some a) (some n) hi ic lv1 lv2 ls lb v ba hp pb m0).1.validator_version =
      (match v with
        | none => m0.validator_version
        | some s => setK m0.validator_version n s) := by
  rcases hpl : resolveLedger cfg.all_penalties lv1 lv2 ls a with _ | l | d <;>
    simp only [stats, publishSystem_eq, publishHeightInfo_eq,
      publishInConsensus_eq, publishBalanceG_eq, publishBlockAge_eq,
      publishVersion_eq, publishLedgerBlock_eq, publishHbbftBlock_eq,
      publishPeerBook_eq, hpl]

theorem stats_ledger_eq :
    (stats cfg host hn (some a) (some n) hi ic lv1 lv2 ls lb v ba hp pb m0).1.ledger_penalty =
      (match resolveLedger cfg.all_penalties lv1 lv2 ls a with
        | PenaltyLedger.pynone => m0.ledger_penalty
        | PenaltyLedger.pylist _ => (fun _ => none)
        | PenaltyLedger.pydict d => ledgerGaugeOf (fun _ => none) d) := by
  rcases hpl : resolveLedger cfg.all_penalties lv1 lv2 ls a with _ | l | d <;>
    simp only [stats, publishSystem_eq, publishHeightInfo_eq,
      publishInConsensus_eq, publishBalanceG_eq, publishBlockAge_eq,
      publishVersion_eq, publishLedgerBlock_eq, publishHbbftBlock_eq,
      publishPeerBook_eq, hpl]

theorem stats_heartbeat_eq :
    (stats cfg host hn (some a) (some n) hi ic lv1 lv2 ls lb v ba hp pb m0).1.heartbeat =
      (match resolveLedger cfg.all_penalties lv1 lv2 ls a with
        | PenaltyLedger.pydict d => heartbeatGaugeOf m0.heartbeat d
        | _ => m0.heartbeat) := by
  rcases hpl : resolveLedger cfg.all_penalties lv1 lv2 ls a with _ | l | d <;>
    simp only [stats, publishSystem_eq, publishHeightInfo_eq,
      publishInConsensus_eq, publishBalanceG_eq, publishBlockAge_eq,
      publishVersion_eq, publishLedgerBlock_eq, publishHbbftBlock_eq,
      publishPeerBook_eq, hpl]

theorem stats_hbbft_eq :
    (stats cfg host hn (some a) (some n) hi ic lv1 lv2 ls lb v ba hp pb m0).1.hbbft_perf =
      (match resolveLedger cfg.all_penalties lv1 lv2 ls a with
        | PenaltyLedger.pylist _ => m0.hbbft_perf
        | _ =>
          (match hp with
            | none => m0.hbbft_perf
            | some h =>
                hbbftGaugeOf a cfg.all_hbbft h.blocks_since_epoch h.max_seen
                  (fun _ => none) h.consensus_members)) := by
  rcases hpl : resolveLedger cfg.all_penalties lv1 lv2 ls a with _ | l | d <;>
    simp only [stats, publishSystem_eq, publishHeightInfo_eq,
      publishInConsensus_eq, publishBalanceG_eq, publishBlockAge_eq,
      publishVersion_eq, publishLedgerBlock_eq, publishHbbftBlock_eq,
      publishPeerBook_eq, hpl]

theorem stats_connections_eq :
    (stats cfg host hn (some a) (some n) hi ic lv1 lv2 ls lb v ba hp pb m0).1.connections =
      (match resolveLedger cfg.all_penalties lv1 lv2 ls a with
        | PenaltyLedger.pylist _ => m0.connections
        | _ =>
          (match pb with
            | some (e :: _) =>
                setK m0.connections ("connections", n) e.connection_count
            | _ => m0.connections)) := by
  rcases hpl : resolveLedger cfg.all_penalties lv1 lv2 ls a with _ | l | d <;>
    simp only [stats, publishSystem_eq, publishHeightInfo_eq,
      publishInConsensus_eq, publishBalanceG_eq, publishBlockAge_eq,
      publishVersion_eq, publishLedgerBlock_eq, publishHbbftBlock_eq,
      publishPeerBook_eq, hpl]

theorem stats_sessions_eq :
    (stats cfg host hn (some a) (some n) hi ic lv1 lv2 ls lb v ba hp pb m0).1.sessions =
      (match resolveLedger cfg.all_penalties lv1 lv2 ls a with
        | PenaltyLedger.pylist _ => m0.sessions
        | _ =>
          (match pb with
            | some (e :: _) =>
                setK m0.sessions ("sessions", n) ((e.sessions.length : ℚ))
            | _ => m0.sessions)) := by
  rcases hpl : resolveLedger cfg.all_penalties lv1 lv2 ls a with _ | l | d <;>
    simp only [stats, publishSystem_eq, publishHeightInfo_eq,
      publishInConsensus_eq, publishBalanceG_eq, publishBlockAge_eq,
      publishVersion_eq, publishLedgerBlock_eq, publishHbbftBlock_eq,
      publishPeerBook_eq, hpl]

theorem stats_err_eq :
    (stats cfg host hn (some a) (some n) hi ic lv1 lv2 ls lb v ba hp pb m0).2 =
      (match resolveLedger cfg.all_penalties lv1 lv2 ls a with
        | PenaltyLedger.pylist _ => some PyErr.attributeError
        | _ =>
          (match pb with
            | some [] => some PyErr.indexError
            | _ => none)) := by
  rcases hpl : resolveLedger cfg.all_penalties lv1 lv2 ls a with _ | l | d <;>
    simp only [stats, publishSystem_eq, publishHeightInfo_eq,
      publishInConsensus_eq, publishBalanceG_eq, publishBlockAge_eq,
      publishVersion_eq, publishLedgerBlock_eq, publishHbbftBlock_eq,
      publishPeerBook_eq, hpl]

theorem stats_system_eq :
    (stats cfg host hn (some a) (some n) hi ic lv1 lv2 ls lb v ba hp pb m0).1.system_usage =
      (if cfg.collect_system_usage = true then
        (setK (setK (setK (setK (setK (setK m0.system_usage
          ("CPU", hn) host.cpu_percent)
          ("Memory", hn) host.virtual_memory)
          ("CPU-Steal", hn) host.cpu_steal)
          ("Disk Used", hn) (host.disk_used / host.disk_total))
          ("Disk Free", hn) (host.disk_free / host.disk_total))
          ("Process-Count", hn) host.process_count)
      else m0.system_usage) := by
  rcases hpl : resolveLedger cfg.all_penalties lv1 lv2 ls a with _ | l | d <;>
    simp only [stats, publishSystem_eq, publishHeightInfo_eq,
      publishInConsensus_eq, publishBalanceG_eq, publishBlockAge_eq,
      publishVersion_eq, publishLedgerBlock_eq, publishHbbftBlock_eq,
      publishPeerBook_eq, hpl]

/-- The HBBFT block of a cycle that does not abort in the ledger block
behaves as in the single-fetch reading: rewritten on a successful HBBFT
fetch, untouched on a failed one. -/
theorem stats_hbbft_noabort
    (hnr : (resolveLedger cfg.all_penalties lv1 lv2 ls a).isList = false) :
    (stats cfg host hn (some a) (some n) hi ic lv1 lv2 ls lb v ba hp pb m0).1.hbbft_perf =
      (match hp with
        | none => m0.hbbft_perf
        | some h =>
            hbbftGaugeOf a cfg.all_hbbft h.blocks_since_epoch h.max_seen
              (fun _ => none) h.consensus_members) := by
  rw [stats_hbbft_eq]
  rcases hpl : resolveLedger cfg.all_penalties lv1 lv2 ls a with _ | l | d
  · rfl
  · rw [hpl] at hnr
    simp [PenaltyLedger.isList] at hnr
  · rfl

/-! ### The claims -/

/-- Claim C3: identity hard-fail gate — in every cycle in which the
validator-address fetch or the validator-name fetch fails, `stats` returns
immediately with the registry completely unchanged (and no escaping error);
no metric value, published or unset, is touched. -/
theorem claim_C3_identity_gate (addrR nameR : Option String)
    (h : addrR = none ∨ nameR = none) :
    stats cfg host hn addrR nameR hi ic lv1 lv2 ls lb v ba hp pb m0 = (m0, none) := by
  rcases h with h | h
  · subst h; rfl
  · subst h; cases addrR <;> rfl

/-- Witness for C3 at a concrete cycle whose name fetch fails. -/
theorem claim_C3_identity_gate_witness :
    stats cfgOff hostEx "h" (some "a1") none (some hiEx) (some true) none none
      (some entEx) lbEx (some "v1") (some 5) (some hpExSelf) (some [pbEx])
      ghostMetrics = (ghostMetrics, none) :=
  claim_C3_identity_gate cfgOff hostEx "h" (some hiEx) (some true) none none
    (some entEx) lbEx (some "v1") (some 5) (some hpExSelf) (some [pbEx])
    ghostMetrics (some "a1") none (Or.inr rfl)

/-- Claim C2 counterexample: the driver loop does not catch every error
raised by `stats`.  On a cycle in which the peer-book fetch succeeds with an
empty sequence, `stats` raises an `IndexError`, and the loop iteration does
not survive it (the `except ValueError` handler at line 238 does not match),
so the process exits. -/
theorem claim_C2_counterexample :
    (stats cfgOff hostEx "h" (some "a1") (some "n1") (some hiEx) (some true)
      none none (some entEx) lbEx (some "v1") (some 5) (some hpExSelf)
      (some []) emptyMetrics).2 = some PyErr.indexError ∧
    (loopStep cfgOff hostEx "h" (some "a1") (some "n1") (some hiEx)
      (some true) none none (some entEx) lbEx (some "v1") (some 5)
      (some hpExSelf) (some []) emptyMetrics).2 = false := by
  exact ⟨rfl, rfl⟩

/-- Claim C2 amended: the driver loop survives an iteration exactly when
`stats` returns normally or raises a `ValueError` (the only class its
handler names); any other error — the `IndexError` from an empty peer-book
response, or the `AttributeError` from the divergent ledger double-fetch —
escapes and terminates the process.  In either case the registry state
after the iteration is the state `stats` left behind. -/
theorem claim_C2_amended (addrR nameR : Option String) :
    (loopStep cfg host hn addrR nameR hi ic lv1 lv2 ls lb v ba hp pb m0).1 =
      (stats cfg host hn addrR nameR hi ic lv1 lv2 ls lb v ba hp pb m0).1 ∧
    ((loopStep cfg host hn addrR nameR hi ic lv1 lv2 ls lb v ba hp pb m0).2 = true ↔
      ((stats cfg host hn addrR nameR hi ic lv1 lv2 ls lb v ba hp pb m0).2 = none ∨
       (stats cfg host hn addrR nameR hi ic lv1 lv2 ls lb v ba hp pb m0).2 =
         some PyErr.valueError)) := by
  rcases hres : stats cfg host hn addrR nameR hi ic lv1 lv2 ls lb v ba hp pb m0
    with ⟨m, e⟩
  simp only [loopStep, hres]
  rcases e with _ | e
  · simp
  · cases e <;> simp

/-- Claim C9: on a cycle in which the peer-book fetch succeeds but returns
an empty sequence, the publication phase indexes the first element without a
guard and raises an `IndexError`; the metrics published earlier in the same
cycle (here: in-consensus, block age) are already visible, the peer-book
metrics are not (partial publication, no atomicity), and the error escapes
`stats` into a driver whose handler catches only `ValueError`, so the
process dies. -/
theorem claim_C9_empty_peerbook :
    (stats cfgOff hostEx "h" (some "a1") (some "n1") (some hiEx) (some true)
      none none (some entEx) lbEx (some "v1") (some 5) (some hpExSelf)
      (some []) emptyMetrics).2 = some PyErr.indexError ∧
    (stats cfgOff hostEx "h" (some "a1") (some "n1") (some hiEx) (some true)
      none none (some entEx) lbEx (some "v1") (some 5) (some hpExSelf)
      (some []) emptyMetrics).1.incon "n1" = some 1 ∧
    (stats cfgOff hostEx "h" (some "a1") (some "n1") (some hiEx) (some true)
      none none (some entEx) lbEx (some "v1") (some 5) (some hpExSelf)
      (some []) emptyMetrics).1.blockage "n1" = some 5 ∧
    (stats cfgOff hostEx "h" (some "a1") (some "n1") (some hiEx) (some true)
      none none (some entEx) lbEx (some "v1") (some 5) (some hpExSelf)
      (some []) emptyMetrics).1.connections ("connections", "n1") = none ∧
    (stats cfgOff hostEx "h" (some "a1") (some "n1") (some hiEx) (some true)
      none none (some entEx) lbEx (some "v1") (some 5) (some hpExSelf)
      (some []) emptyMetrics).1.sessions ("sessions", "n1") = none ∧
    (loopStep cfgOff hostEx "h" (some "a1") (some "n1") (some hiEx)
      (some true) none none (some entEx) lbEx (some "v1") (some 5)
      (some hpExSelf) (some []) emptyMetrics).2 = false := by
  refine ⟨rfl, ?_, ?_, ?_, ?_, rfl⟩ <;> decide

/-- Claim C7 counterexample: host-usage publication is not independent of
RPC success.  With the host-usage flag enabled, a cycle whose
validator-address fetch fails publishes no host-usage sample at all,
because the sampling block sits after the identity gate (lines 74–101). -/
theorem claim_C7_counterexample :
    cfgOn.collect_system_usage = true ∧
    (stats cfgOn hostEx "h" none (some "n1") (some hiEx) (some true)
      (some [entEx]) (some [entEx]) none lbEx (some "v1") (some 5)
      (some hpExSelf) (some [pbEx]) emptyMetrics).1.system_usage ("CPU", "h")
      = none := by
  exact ⟨rfl, rfl⟩

/-- Claim C7 amended: when the host-usage flag is enabled, every cycle that
passes the identity gate samples and publishes the six host-usage values
(CPU percent, memory percent, CPU-steal percent, disk-used fraction,
disk-free fraction, process count) labelled by resource type and hostname,
independently of the outcome of every phase-2 RPC fetch; a cycle that fails
the identity gate publishes none of them. -/
theorem claim_C7_amended (hcs : cfg.collect_system_usage = true) :
    (stats cfg host hn (some a) (some n) hi ic lv1 lv2 ls lb v ba hp pb m0).1.system_usage
        ("CPU", hn) = some host.cpu_percent ∧
    (stats cfg host hn (some a) (some n) hi ic lv1 lv2 ls lb v ba hp pb m0).1.system_usage
        ("Memory", hn) = some host.virtual_memory ∧
    (stats cfg host hn (some a) (some n) hi ic lv1 lv2 ls lb v ba hp pb m0).1.system_usage
        ("CPU-Steal", hn) = some host.cpu_steal ∧
    (stats cfg host hn (some a) (some n) hi ic lv1 lv2 ls lb v ba hp pb m0).1.system_usage
        ("Disk Used", hn) = some (host.disk_used / host.disk_total) ∧
    (stats cfg host hn (some a) (some n) hi ic lv1 lv2 ls lb v ba hp pb m0).1.system_usage
        ("Disk Free", hn) = some (host.disk_free / host.disk_total) ∧
    (stats cfg host hn (some a) (some n) hi ic lv1 lv2 ls lb v ba hp pb m0).1.system_usage
        ("Process-Count", hn) = some host.process_count := by
  refine ⟨?_, ?_, ?_, ?_, ?_, ?_⟩ <;>
    rw [stats_system_eq, if_pos hcs] <;>
    simp [setK, Prod.mk.injEq]

/-- Witness for the amended C7 at a concrete cycle in which every phase-2
fetch fails. -/
theorem claim_C7_amended_witness :
    (stats cfgOn hostEx "h" (some "a1") (some "n1") none none none none none
      lbEx none none none none emptyMetrics).1.system_usage ("CPU", "h")
        = some hostEx.cpu_percent ∧
    (stats cfgOn hostEx "h" (some "a1") (some "n1") none none none none none
      lbEx none none none none emptyMetrics).1.system_usage ("Memory", "h")
        = some hostEx.virtual_memory ∧
    (stats cfgOn hostEx "h" (some "a1") (some "n1") none none none none none
      lbEx none none none none emptyMetrics).1.system_usage ("CPU-Steal", "h")
        = some hostEx.cpu_steal ∧
    (stats cfgOn hostEx "h" (some "a1") (some "n1") none none none none none
      lbEx none none none none emptyMetrics).1.system_usage ("Disk Used", "h")
        = some (hostEx.disk_used / hostEx.disk_total) ∧
    (stats cfgOn hostEx "h" (some "a1") (some "n1") none none none none none
      lbEx none none none none emptyMetrics).1.system_usage ("Disk Free", "h")
        = some (hostEx.disk_free / hostEx.disk_total) ∧
    (stats cfgOn hostEx "h" (some "a1") (some "n1") none none none none none
      lbEx none none none none emptyMetrics).1.system_usage ("Process-Count", "h")
        = some hostEx.process_count :=
  claim_C7_amended cfgOn hostEx "h" "a1" "n1" none none none none none lbEx
    none none none none emptyMetrics rfl

/-- Claim C10: the last-heartbeat family is never cleared.  A heartbeat
child present before a cycle is still present after it (whatever the cycle
does, including the divergent ledger paths), and when the resolved ledger
dict contains no entry labelled with a given (name, address), that child's
value is carried over unchanged — unlike the ledger-penalty family,
heartbeat labels are never evicted. -/
theorem claim_C10_heartbeat_persists (addrR nameR : Option String)
    (k : String × String) :
    (m0.heartbeat k ≠ none →
      (stats cfg host hn addrR nameR hi ic lv1 lv2 ls lb v ba hp pb m0).1.heartbeat k
        ≠ none) ∧
    (∀ a' n' d, addrR = some a' → nameR = some n' →
      resolveLedger cfg.all_penalties lv1 lv2 ls a' = PenaltyLedger.pydict d →
      (∀ p ∈ d, (p.2.name, p.2.address) ≠ k) →
      (stats cfg host hn addrR nameR hi ic lv1 lv2 ls lb v ba hp pb m0).1.heartbeat k
        = m0.heartbeat k) := by
  constructor
  · intro h
    cases addrR with
    | none => rw [stats_identity_none]; exact h
    | some a' =>
      cases nameR with
      | none => rw [stats_name_none]; exact h
      | some n' =>
        rw [stats_heartbeat_eq]
        rcases hres : resolveLedger cfg.all_penalties lv1 lv2 ls a' with _ | l | d
        · exact h
        · exact h
        · exact heartbeatGaugeOf_ne_none d m0.heartbeat k h
  · intro a' n' d ha hb hd hne
    subst ha
    subst hb
    rw [stats_heartbeat_eq, hd]
    exact heartbeatGaugeOf_frame d m0.heartbeat k hne

/-- Witness for C10: a heartbeat child for a ghost entity, absent from the
cycle's ledger, survives a successful cycle with its value unchanged. -/
theorem claim_C10_witness :
    (stats cfgOff hostEx "h" (some "a1") (some "n1") (some hiEx) (some true)
      none none (some entEx) lbEx (some "v1") (some 5) (some hpExSelf)
      (some [pbEx]) ghostMetrics).1.heartbeat ("ghost", "ga")
      = ghostMetrics.heartbeat ("ghost", "ga") :=
  (claim_C10_heartbeat_persists cfgOff hostEx "h" (some hiEx) (some true)
      none none (some entEx) lbEx (some "v1") (some 5) (some hpExSelf)
      (some [pbEx]) ghostMetrics (some "a1") (some "n1")
      ("ghost", "ga")).2 "a1" "n1" [("a1", entEx)] rfl rfl rfl (by decide)

/-- Claim C8: the owner-balance metric is published only when an owner
address was resolvable by looking up the self address in the resolved
penalty-ledger mapping (so never on the `None` or raw-list ledger values,
where the owner stays unset); when the subsequent balance fetch succeeds,
the published value is exactly the raw upstream balance divided by `1.0e8`
(modelled as the exact rational `10^8`); when the lookup fails or the fetch
fails, the balance family is untouched. -/
theorem claim_C8_owner_balance :
    (ledgerOwner (resolveLedger cfg.all_penalties lv1 lv2 ls a) a = none →
      (stats cfg host hn (some a) (some n) hi ic lv1 lv2 ls lb v ba hp pb m0).1.balance
        = m0.balance) ∧
    (∀ d e, resolveLedger cfg.all_penalties lv1 lv2 ls a = PenaltyLedger.pydict d →
      dictGet d a = some e →
      ((lb e.owner_address = none →
        (stats cfg host hn (some a) (some n) hi ic lv1 lv2 ls lb v ba hp pb m0).1.balance
          = m0.balance) ∧
       (∀ b, lb e.owner_address = some b →
        (stats cfg host hn (some a) (some n) hi ic lv1 lv2 ls lb v ba hp pb m0).1.balance n
            = some (b / 100000000) ∧
        ∀ x, x ≠ n →
          (stats cfg host hn (some a) (some n) hi ic lv1 lv2 ls lb v ba hp pb m0).1.balance x
            = m0.balance x))) := by
  constructor
  · intro h
    rw [stats_balance_eq]
    simp [cycleBalance, h]
  · intro d e hd he
    constructor
    · intro hlb
      rw [stats_balance_eq]
      simp [cycleBalance, ledgerOwner, hd, he, hlb]
    · intro b hb
      constructor
      · rw [stats_balance_eq]
        simp [cycleBalance, ledgerOwner, hd, he, hb, setK]
      · intro x hx
        rw [stats_balance_eq]
        simp [cycleBalance, ledgerOwner, hd, he, hb, setK, hx]

/-- Witness for C8: on a cycle in which the owner address resolves to `o1`
and the balance fetch returns 12345, the published balance is exactly
12345 / 10^8. -/
theorem claim_C8_witness :
    (stats cfgOff hostEx "h" (some "a1") (some "n1") (some hiEx) (some true)
      none none (some entEx) lbEx (some "v1") (some 5) (some hpExSelf)
      (some [pbEx]) emptyMetrics).1.balance "n1"
      = some ((12345 : ℚ) / 100000000) :=
  (((claim_C8_owner_balance cfgOff hostEx "h" "a1" "n1" (some hiEx)
      (some true) none none (some entEx) lbEx (some "v1") (some 5)
      (some hpExSelf) (some [pbEx]) emptyMetrics).2 [("a1", entEx)] entEx rfl
      (by decide)).2 12345 (by decide)).1

/-- Claim C1, the code bug that falsifies its failure branch: in the
broadened mode, when the first `miner.ledger_validators()` call (line 121)
succeeds and the immediate re-fetch inside the dict comprehension
(line 124) raises, the cycle logs "validator fetch failure" yet
`penalty_ledger` is left bound to the raw list, so the `is not None` guard
passes, `LEDGER_PENALTY.clear()` (line 194) evicts every previously
published child — the claim says a failed fetch leaves the family
untouched — and `penalty_ledger.items()` (line 196) raises
`AttributeError`.  Evaluated here at a concrete such cycle: the stale
child is gone, the whole family is left cleared, and the error escapes. -/
theorem claim_C1_cleared_on_failed_fetch :
    cfgOn.all_penalties = true ∧
    ghostMetrics.ledger_penalty ("ledger_penalties", "tenure", "ghost", "ga")
      = some 42 ∧
    (stats cfgOn hostEx "h" (some "a1") (some "n1") (some hiEx) (some true)
      (some [entEx]) none none lbEx (some "v1") (some 5) (some hpExSelf)
      (some [pbEx]) ghostMetrics).1.ledger_penalty = (fun _ => none) ∧
    (stats cfgOn hostEx "h" (some "a1") (some "n1") (some hiEx) (some true)
      (some [entEx]) none none lbEx (some "v1") (some 5) (some hpExSelf)
      (some [pbEx]) ghostMetrics).2 = some PyErr.attributeError := by
  refine ⟨rfl, ?_, rfl, rfl⟩
  decide

/-- Claim C4, the same code bug from the isolation side: on that divergent
cycle the penalty-ledger failure is not isolated — the value is a raw list
rather than unset, the cycle aborts with an `AttributeError` at line 196,
and the successful HBBFT and peer-book fetches never publish (their
families stay exactly as before), while metrics published earlier in the
same cycle (in-consensus here) are already visible. -/
theorem claim_C4_abort_on_failed_fetch :
    (stats cfgOn hostEx "h" (some "a1") (some "n1") (some hiEx) (some true)
      (some [entEx]) none none lbEx (some "v1") (some 5) (some hpExSelf)
      (some [pbEx]) emptyMetrics).2 = some PyErr.attributeError ∧
    (stats cfgOn hostEx "h" (some "a1") (some "n1") (some hiEx) (some true)
      (some [entEx]) none none lbEx (some "v1") (some 5) (some hpExSelf)
      (some [pbEx]) emptyMetrics).1.incon "n1" = some 1 ∧
    (stats cfgOn hostEx "h" (some "a1") (some "n1") (some hiEx) (some true)
      (some [entEx]) none none lbEx (some "v1") (some 5) (some hpExSelf)
      (some [pbEx]) emptyMetrics).1.hbbft_perf = emptyMetrics.hbbft_perf ∧
    (stats cfgOn hostEx "h" (some "a1") (some "n1") (some hiEx) (some true)
      (some [entEx]) none none lbEx (some "v1") (some 5) (some hpExSelf)
      (some [pbEx]) emptyMetrics).1.connections = emptyMetrics.connections ∧
    (stats cfgOn hostEx "h" (some "a1") (some "n1") (some hiEx) (some true)
      (some [entEx]) none none lbEx (some "v1") (some 5) (some hpExSelf)
      (some [pbEx]) emptyMetrics).1.sessions = emptyMetrics.sessions ∧
    (loopStep cfgOn hostEx "h" (some "a1") (some "n1") (some hiEx)
      (some true) (some [entEx]) none none lbEx (some "v1") (some 5)
      (some hpExSelf) (some [pbEx]) emptyMetrics).2 = false := by
  refine ⟨rfl, ?_, rfl, rfl, rfl, rfl⟩
  decide

/-- Claim C5 counterexample: with both broaden flags off, a fully
successful cycle does **not** always publish HBBFT entries for exactly one
entity.  When the self validator is not among the returned consensus
members (here the snapshot contains only a member with address `a2` while
self is `a1`), the `validator_hbbft_perf` family is cleared and then
nothing is written: the published HBBFT output contains no entity at all. -/
theorem claim_C5_counterexample :
    cfgOff.all_hbbft = false ∧
    cfgOff.all_penalties = false ∧
    (stats cfgOff hostEx "h" (some "a1") (some "n1") (some hiEx) (some true)
      none none (some entEx) lbEx (some "v1") (some 5) (some hpExOther)
      (some [pbEx]) emptyMetrics).2 = none ∧
    ∀ lbl,
      (stats cfgOff hostEx "h" (some "a1") (some "n1") (some hiEx)
        (some true) none none (some entEx) lbEx (some "v1") (some 5)
        (some hpExOther) (some [pbEx]) emptyMetrics).1.hbbft_perf lbl
        = none := by
  refine ⟨rfl, rfl, rfl, fun lbl => ?_⟩
  rfl

/-- Claim C5 amended: with the broaden flags off, the ledger output
contains exactly the self entity, and the HBBFT output of a cycle that
does not abort in the ledger block contains entries exactly for the
consensus members whose address is the self address — so exactly self when
self is in the consensus group, and none otherwise.  With a broaden flag
on, the corresponding output contains an entry for every qualifying entity
returned upstream: every consensus member for HBBFT, and every `staked`
entry of the re-fetched ledger list, keyed by address, for penalties. -/
theorem claim_C5_broaden_flags :
    (cfg.all_penalties = false → ∀ e, ls = some e →
      ((stats cfg host hn (some a) (some n) hi ic lv1 lv2 ls lb v ba hp pb m0).1.ledger_penalty
          ("ledger_penalties", "tenure", e.name, e.address)
          = some e.tenure_penalty ∧
       ∀ rt st2 nm ad,
        (stats cfg host hn (some a) (some n) hi ic lv1 lv2 ls lb v ba hp pb m0).1.ledger_penalty
          (rt, st2, nm, ad) ≠ none → nm = e.name ∧ ad = e.address)) ∧
    (cfg.all_penalties = true → ∀ l1 l, lv1 = some l1 → lv2 = some l →
      ((((l.filter (fun w => w.status == "staked")).map
            (fun w => w.address)).Nodup →
        ∀ e ∈ l, e.status = "staked" →
          (stats cfg host hn (some a) (some n) hi ic lv1 lv2 ls lb v ba hp pb m0).1.ledger_penalty
            ("ledger_penalties", "tenure", e.name, e.address)
            = some e.tenure_penalty) ∧
       (∀ rt st2 nm ad,
          (stats cfg host hn (some a) (some n) hi ic lv1 lv2 ls lb v ba hp pb m0).1.ledger_penalty
            (rt, st2, nm, ad) ≠ none →
          ∃ e ∈ l, e.status = "staked" ∧ nm = e.name ∧ ad = e.address))) ∧
    ((resolveLedger cfg.all_penalties lv1 lv2 ls a).isList = false →
      cfg.all_hbbft = false → ∀ h, hp = some h →
      ((∀ rt st2 nm,
          (stats cfg host hn (some a) (some n) hi ic lv1 lv2 ls lb v ba hp pb m0).1.hbbft_perf
            (rt, st2, nm) ≠ none →
          ∃ c ∈ h.consensus_members, c.address = a ∧ nm = c.name) ∧
       (∀ c ∈ h.consensus_members, c.address = a →
          (stats cfg host hn (some a) (some n) hi ic lv1 lv2 ls lb v ba hp pb m0).1.hbbft_perf
            ("hbbft_perf", "Penalty", c.name) ≠ none))) ∧
    ((resolveLedger cfg.all_penalties lv1 lv2 ls a).isList = false →
      cfg.all_hbbft = true → ∀ h, hp = some h →
      ∀ c ∈ h.consensus_members,
        (stats cfg host hn (some a) (some n) hi ic lv1 lv2 ls lb v ba hp pb m0).1.hbbft_perf
          ("hbbft_perf", "Penalty", c.name) ≠ none) := by
  refine ⟨?_, ?_, ?_, ?_⟩
  · intro hap e hls
    have hd : resolveLedger cfg.all_penalties lv1 lv2 ls a =
        PenaltyLedger.pydict [(a, e)] := by
      simp [resolveLedger, hap, hls]
    constructor
    · rw [stats_ledger_eq, hd]
      exact (ledgerGaugeOf_values [(a, e)] (fun _ => none) (by simp)
        (by simp) (a, e) (List.mem_singleton.mpr rfl)).1
    · intro rt st2 nm ad hne
      rw [stats_ledger_eq, hd] at hne
      rcases ledgerGaugeOf_support _ _ _ _ _ _ hne with hne | ⟨p, hp1, hm⟩
      · simp at hne
      · rw [List.mem_singleton] at hp1
        subst hp1
        exact hm
  · intro hap l1 l hlv1 hlv2
    have hd : resolveLedger cfg.all_penalties lv1 lv2 ls a =
        PenaltyLedger.pydict
          (dictOfLedger (l.filter (fun w => w.status == "staked"))) := by
      simp [resolveLedger, hap, hlv1, hlv2]
    constructor
    · intro hnd e hel hst
      have hmap := dictOfLedger_eq_map _ hnd
      rw [stats_ledger_eq, hd, hmap]
      have hmem : (e.address, e) ∈
          (l.filter (fun w => w.status == "staked")).map
            (fun w => (w.address, w)) := by
        exact List.mem_map_of_mem _
          (List.mem_filter.mpr ⟨hel, by simp [hst]⟩)
      have hnd2 : (((l.filter (fun w => w.status == "staked")).map
          (fun w => (w.address, w))).map (fun p => p.2.address)).Nodup := by
        rw [List.map_map]
        exact hnd
      exact (ledgerGaugeOf_values _ (fun _ => none) hnd2 (by simp)
        (e.address, e) hmem).1
    · intro rt st2 nm ad hne
      rw [stats_ledger_eq, hd] at hne
      rcases ledgerGaugeOf_support _ _ _ _ _ _ hne with hne | ⟨p, hp1, hm⟩
      · simp at hne
      · rw [dictOfLedger] at hp1
        rcases mem_dictOfLedgerAux _ [] p hp1 with hemp | ⟨w, hw, hpw⟩
        · exact absurd hemp (List.not_mem_nil p)
        · subst hpw
          rcases List.mem_filter.mp hw with ⟨hwl, hwst⟩
          exact ⟨w, hwl, by simpa using hwst, hm.1, hm.2⟩
  · intro hnr hah h hhp
    constructor
    · intro rt st2 nm hne
      rw [stats_hbbft_noabort cfg host hn a n hi ic lv1 lv2 ls lb v ba hp pb
        m0 hnr, hhp] at hne
      rcases hbbftGaugeOf_support _ _ _ _ _ _ _ _ _ hne with
        hne | ⟨c, hc, hcond, hnm⟩
      · simp at hne
      · rcases hcond with hcond | hcond
        · exact ⟨c, hc, hcond, hnm⟩
        · rw [hah] at hcond
          exact absurd hcond (by simp)
    · intro c hc hca
      rw [stats_hbbft_noabort cfg host hn a n hi ic lv1 lv2 ls lb v ba hp pb
        m0 hnr, hhp]
      exact hbbftGaugeOf_penalty a cfg.all_hbbft h.blocks_since_epoch
        h.max_seen h.consensus_members (fun _ => none) c hc (Or.inl hca)
  · intro hnr hah h hhp c hc
    rw [stats_hbbft_noabort cfg host hn a n hi ic lv1 lv2 ls lb v ba hp pb
      m0 hnr, hhp]
    exact hbbftGaugeOf_penalty a cfg.all_hbbft h.blocks_since_epoch
      h.max_seen h.consensus_members (fun _ => none) c hc (Or.inr hah)

/-- Witness for the amended C5: with the flags off, a cycle whose ledger
holds the self entry and whose consensus group contains the self member
publishes the self ledger tenure sample and a self HBBFT penalty sample. -/
theorem claim_C5_broaden_flags_witness :
    (stats cfgOff hostEx "h" (some "a1") (some "n1") (some hiEx) (some true)
      none none (some entEx) lbEx (some "v1") (some 5) (some hpExSelf)
      (some [pbEx]) emptyMetrics).1.ledger_penalty
        ("ledger_penalties", "tenure", entEx.name, entEx.address)
        = some entEx.tenure_penalty ∧
    (stats cfgOff hostEx "h" (some "a1") (some "n1") (some hiEx) (some true)
      none none (some entEx) lbEx (some "v1") (some 5) (some hpExSelf)
      (some [pbEx]) emptyMetrics).1.hbbft_perf
        ("hbbft_perf", "Penalty", memSelf.name) ≠ none := by
  have h := claim_C5_broaden_flags cfgOff hostEx "h" "a1" "n1" (some hiEx)
    (some true) none none (some entEx) lbEx (some "v1") (some 5)
    (some hpExSelf) (some [pbEx]) emptyMetrics
  refine ⟨(h.1 rfl entEx rfl).1, ?_⟩
  exact (h.2.2.1 (by decide) rfl hpExSelf rfl).2 memSelf
    (List.mem_singleton.mpr rfl) rfl

/-- Claim C6: for every entry of the resolved penalty-ledger dict of a
cycle, the `perf_tenure_ratio` child is published if and only if the
entry's tenure penalty is strictly positive, and then its value is exactly
(performance_penalty + dkg_penalty) / tenure_penalty.  The division is
performed only under the positivity guard, so publication can never raise a
division-by-zero error. -/
theorem claim_C6_perf_tenure_ratio (d : List (String × LedgerEntry))
    (hd : resolveLedger cfg.all_penalties lv1 lv2 ls a = PenaltyLedger.pydict d) :
    ∀ p ∈ d,
      (p.2.tenure_penalty > 0 →
        (stats cfg host hn (some a) (some n) hi ic lv1 lv2 ls lb v ba hp pb m0).1.ledger_penalty
          ("ledger_penalties", "perf_tenure_ratio", p.2.name, p.2.address)
          = some ((p.2.performance_penalty + p.2.dkg_penalty)
              / p.2.tenure_penalty)) ∧
      (¬ p.2.tenure_penalty > 0 →
        (stats cfg host hn (some a) (some n) hi ic lv1 lv2 ls lb v ba hp pb m0).1.ledger_penalty
          ("ledger_penalties", "perf_tenure_ratio", p.2.name, p.2.address)
          = none) := by
  intro p hp1
  have hnd := resolveLedger_addr_nodup _ _ _ _ _ _ hd
  have hv := ledgerGaugeOf_values d (fun _ => none) hnd (by simp) p hp1
  rw [stats_ledger_eq, hd]
  exact ⟨hv.2.2.2.2.1, hv.2.2.2.2.2⟩

/-- Witness for C6 on a broadened cycle with two staked entries: the entry
with tenure penalty 10 publishes ratio (3 + 2) / 10, the entry with tenure
penalty 0 publishes no ratio child. -/
theorem claim_C6_witness :
    (stats cfgOn hostEx "h" (some "a1") (some "n1") (some hiEx) (some true)
      (some [entEx, entEx2]) (some [entEx, entEx2]) none lbEx (some "v1")
      (some 5) (some hpExSelf) (some [pbEx]) emptyMetrics).1.ledger_penalty
        ("ledger_penalties", "perf_tenure_ratio", entEx.name, entEx.address)
        = some ((entEx.performance_penalty + entEx.dkg_penalty)
            / entEx.tenure_penalty) ∧
    (stats cfgOn hostEx "h" (some "a1") (some "n1") (some hiEx) (some true)
      (some [entEx, entEx2]) (some [entEx, entEx2]) none lbEx (some "v1")
      (some 5) (some hpExSelf) (some [pbEx]) emptyMetrics).1.ledger_penalty
        ("ledger_penalties", "perf_tenure_ratio", entEx2.name, entEx2.address)
        = none := by
  have h := claim_C6_perf_tenure_ratio cfgOn hostEx "h" "a1" "n1" (some hiEx)
    (some true) (some [entEx, entEx2]) (some [entEx, entEx2]) none lbEx
    (some "v1") (some 5) (some hpExSelf) (some [pbEx]) emptyMetrics
    [("a1", entEx), ("a2", entEx2)] (by decide)
  exact ⟨(h ("a1", entEx) (by decide)).1 (by decide),
    (h ("a2", entEx2) (by decide)).2 (by decide)⟩
